import Mathlib

/-!
A verification development for `mediapipe/calculators/core/matrix_subtract_calculator.cc`.

The calculator consumes one streamed matrix and one side-packet matrix,
subtracts one from the other according to the role tags (`MINUEND` /
`SUBTRAHEND`) fixed at `Open`, and emits the difference at the input's
timestamp.  The embedding below translates `GetContract`, `Open` and
`Process` directly from the source.  The external Eigen matrix type is
modelled as a shape-carrying entry function over `ℚ` (the numeric backend
is out of scope per the design; element-wise subtraction is the only
operation used).
-/

namespace MediaPipe

/-- Mirror of `::mediapipe::Status` codes used by this calculator:
`OkStatus()` and `InvalidArgumentError(...)`. -/
inductive StatusCode where
  | ok
  | invalidArgument
deriving DecidableEq, Repr

/-- Mirror of `::mediapipe::Status`: a code together with the error message. -/
structure Status where
  code : StatusCode
  message : String
deriving DecidableEq, Repr

/-- `::mediapipe::OkStatus()`. -/
def okStatus : Status := ⟨.ok, ""⟩

/-- `::mediapipe::InvalidArgumentError(msg)`. -/
def invalidArgumentError (msg : String) : Status := ⟨.invalidArgument, msg⟩

/-- Message of the cardinality failure in `GetContract` (source lines 64-67). -/
def contractCardinalityMsg : String :=
  "MatrixSubtractCalculator only accepts exactly one input stream and one input side packet"

/-- Message of the tag-combination failure in `GetContract` (source lines 78-79). -/
def contractTagMsg : String :=
  "Must specify exactly one minuend and one subtrahend."

/-- Message of the shape-check failure in `Process` (source lines 102-104 and 113-115). -/
def dimensionMsg : String :=
  "Input matrix and the input side matrix must have the same dimension."

/-- The spec-level `InvalidConfiguration` error class: the two
`InvalidArgumentError` statuses that `GetContract` can return. -/
def isInvalidConfiguration (s : Status) : Prop :=
  s.code = .invalidArgument ∧
    (s.message = contractCardinalityMsg ∨ s.message = contractTagMsg)

/-- The spec-level `DimensionMismatch` error class: the
`InvalidArgumentError` status that `Process` can return. -/
def isDimensionMismatch (s : Status) : Prop :=
  s.code = .invalidArgument ∧ s.message = dimensionMsg

instance (s : Status) : Decidable (isInvalidConfiguration s) := by
  unfold isInvalidConfiguration; infer_instance

instance (s : Status) : Decidable (isDimensionMismatch s) := by
  unfold isDimensionMismatch; infer_instance

/-- The external dense 2-D matrix type (Eigen), modelled by its observable
interface: `rows()`, `cols()` and entry access.  Entries are rationals;
the node only ever forms element-wise differences. -/
@[ext]
structure Matrix where
  rows : Nat
  cols : Nat
  entry : Nat → Nat → ℚ

/-- Eigen `operator-` on equally shaped matrices: element-wise difference,
keeping the (common) shape. -/
def Matrix.sub (a b : Matrix) : Matrix :=
  ⟨a.rows, a.cols, fun i j => a.entry i j - b.entry i j⟩

/-- Element-wise negation of a matrix (used to state anti-commutativity). -/
def Matrix.neg (a : Matrix) : Matrix :=
  ⟨a.rows, a.cols, fun i j => - a.entry i j⟩

/-- The packet type the calculator registers for its ports: `Set<Matrix>()`. -/
inductive PacketType where
  | matrixType
deriving DecidableEq, Repr

/-- The statically declared ports of one node instance: the tag of each
input stream and of each input side packet (an untagged port carries `""`).
`NumEntries()` is the length of the list; `HasTag(t)` is membership. -/
structure PortConfig where
  inputTags : List String
  inputSidePacketTags : List String
deriving DecidableEq, Repr

/-- The type registrations performed by a successful `GetContract`:
which input-stream tag, side-packet tag and output index were `Set` to
which packet type. -/
structure ContractState where
  inputTypes : List (String × PacketType)
  inputSidePacketTypes : List (String × PacketType)
  outputIndexTypes : List (Nat × PacketType)
deriving DecidableEq, Repr

/-- `MatrixSubtractCalculator::GetContract` (source lines 60-83): reject
unless exactly one input stream and one input side packet; then require a
complementary `MINUEND`/`SUBTRAHEND` tag pair, registering `Matrix` for
both ports and for output index 0. -/
def GetContract (cc : PortConfig) : Except Status ContractState :=
  if cc.inputTags.length != 1 || cc.inputSidePacketTags.length != 1 then
    .error (invalidArgumentError contractCardinalityMsg)
  else if cc.inputTags.contains "MINUEND" && cc.inputSidePacketTags.contains "SUBTRAHEND" then
    .ok ⟨[("MINUEND", .matrixType)], [("SUBTRAHEND", .matrixType)], [(0, .matrixType)]⟩
  else if cc.inputTags.contains "SUBTRAHEND" && cc.inputSidePacketTags.contains "MINUEND" then
    .ok ⟨[("SUBTRAHEND", .matrixType)], [("MINUEND", .matrixType)], [(0, .matrixType)]⟩
  else
    .error (invalidArgumentError contractTagMsg)

/-- The calculator's only member state, `subtract_from_input_`
(source line 55), with its in-class initializer `= false`. -/
structure CalculatorState where
  subtract_from_input : Bool
deriving DecidableEq, Repr

/-- The field initializer `subtract_from_input_ = false`. -/
def initialState : CalculatorState := ⟨false⟩

/-- What `Open` communicates to the engine and leaves behind: the returned
status, the `SetOffset` registration, and the updated member state. -/
structure OpenResult where
  status : Status
  offset : Int
  state : CalculatorState
deriving DecidableEq, Repr

/-- `MatrixSubtractCalculator::Open` (source lines 85-92): register a zero
timestamp offset, set `subtract_from_input_` when the input stream has tag
`MINUEND`, and return ok. -/
def Open (cc : PortConfig) (st : CalculatorState) : OpenResult :=
  { status := okStatus
    offset := 0
    state :=
      if cc.inputTags.contains "MINUEND" then { st with subtract_from_input := true }
      else st }

/-- One packet added to the output port: a matrix together with the
timestamp passed to `Add`. -/
structure OutputPacket where
  value : Matrix
  timestamp : Int

/-- Everything `Process` can read or write: the member state, the current
streamed input packet, the side packet, and the contents of output index 0. -/
structure ProcessResult where
  status : Status
  state : CalculatorState
  inputMatrix : Matrix
  sideInputMatrix : Matrix
  outputs : List OutputPacket

/-- `MatrixSubtractCalculator::Process` (source lines 94-121): in each
role branch, fetch the streamed and side matrices, fail with the dimension
error when rows or cols differ, otherwise form the difference in the
direction fixed by `subtract_from_input_` and `Add` it at the input
timestamp. -/
def Process (st : CalculatorState) (inputM sideM : Matrix)
    (outputs : List OutputPacket) (inputTimestamp : Int) : ProcessResult :=
  if st.subtract_from_input then
    let input_matrix := inputM
    let side_input_matrix := sideM
    if input_matrix.rows != side_input_matrix.rows ||
        input_matrix.cols != side_input_matrix.cols then
      ⟨invalidArgumentError dimensionMsg, st, inputM, sideM, outputs⟩
    else
      let subtracted := input_matrix.sub side_input_matrix
      ⟨okStatus, st, inputM, sideM, outputs ++ [⟨subtracted, inputTimestamp⟩]⟩
  else
    let input_matrix := inputM
    let side_input_matrix := sideM
    if input_matrix.rows != side_input_matrix.rows ||
        input_matrix.cols != side_input_matrix.cols then
      ⟨invalidArgumentError dimensionMsg, st, inputM, sideM, outputs⟩
    else
      let subtracted := side_input_matrix.sub input_matrix
      ⟨okStatus, st, inputM, sideM, outputs ++ [⟨subtracted, inputTimestamp⟩]⟩

/-! Concrete instances used by the witness theorems. -/

/-- A concrete 2×2 matrix. -/
def m1 : Matrix := ⟨2, 2, fun i j => (i : ℚ) + 2 * j⟩

/-- A concrete 2×2 matrix. -/
def m2 : Matrix := ⟨2, 2, fun _ _ => 1⟩

/-- A concrete 2×3 matrix. -/
def m3 : Matrix := ⟨2, 3, fun _ _ => 0⟩

/-- A concrete 3×2 matrix. -/
def m4 : Matrix := ⟨3, 2, fun _ _ => 0⟩

/-! Helper lemmas shared by the claim theorems. -/

theorem eq_singleton_of_length_one_contains {l : List String} {t : String}
    (hlen : l.length = 1) (hc : l.contains t = true) : l = [t] := by
  obtain ⟨a, rfl⟩ := List.length_eq_one.mp hlen
  have ha : t = a := by simpa using hc
  simp [ha]

theorem shape_check_false {a b : Matrix} (hr : a.rows = b.rows) (hc : a.cols = b.cols) :
    (a.rows != b.rows || a.cols != b.cols) = false := by
  simp [hr, hc]

theorem shape_check_true {a b : Matrix} (h : a.rows ≠ b.rows ∨ a.cols ≠ b.cols) :
    (a.rows != b.rows || a.cols != b.cols) = true := by
  rcases h with h | h <;> simp [h]

theorem Process_eq (st : CalculatorState) (a b : Matrix)
    (outs : List OutputPacket) (ts : Int) :
    Process st a b outs ts =
      if a.rows != b.rows || a.cols != b.cols then
        ⟨invalidArgumentError dimensionMsg, st, a, b, outs⟩
      else
        ⟨okStatus, st, a, b,
          outs ++ [⟨if st.subtract_from_input then a.sub b else b.sub a, ts⟩]⟩ := by
  unfold Process
  by_cases hb : st.subtract_from_input <;>
    by_cases hs : (a.rows != b.rows || a.cols != b.cols) = true <;>
      simp [hb, hs]

/-! The claim theorems. -/

/-- C2: `GetContract` succeeds iff the configuration declares exactly one
input stream and exactly one input side packet whose tags form a
complementary `MINUEND`/`SUBTRAHEND` pair; every failure carries the
`InvalidConfiguration` error class; and on success `Matrix` is registered
as the type of both inputs and of the single untagged output at index 0. -/
theorem GetContract_contract_validity (cc : PortConfig) :
    ((∃ st, GetContract cc = .ok st) ↔
      (cc.inputTags = ["MINUEND"] ∧ cc.inputSidePacketTags = ["SUBTRAHEND"]) ∨
      (cc.inputTags = ["SUBTRAHEND"] ∧ cc.inputSidePacketTags = ["MINUEND"])) ∧
    (∀ e, GetContract cc = .error e → isInvalidConfiguration e) ∧
    (∀ st, GetContract cc = .ok st →
      (∀ p ∈ st.inputTypes, p.2 = PacketType.matrixType) ∧
      (∀ p ∈ st.inputSidePacketTypes, p.2 = PacketType.matrixType) ∧
      st.outputIndexTypes = [(0, PacketType.matrixType)] ∧
      st.inputTypes.map Prod.fst = cc.inputTags ∧
      st.inputSidePacketTypes.map Prod.fst = cc.inputSidePacketTags) := by
  obtain ⟨ins, sides⟩ := cc
  unfold GetContract
  by_cases h1 : (ins.length != 1 || sides.length != 1) = true
  · rw [if_pos h1]
    refine ⟨⟨fun ⟨st, hst⟩ => absurd hst (by simp), ?_⟩, fun e he => ?_, fun st hst => absurd hst (by simp)⟩
    · rintro (⟨rfl, rfl⟩ | ⟨rfl, rfl⟩) <;> simp at h1
    · obtain rfl : invalidArgumentError contractCardinalityMsg = e := by simpa using he
      exact ⟨rfl, Or.inl rfl⟩
  · rw [if_neg h1]
    have hlen : ins.length = 1 ∧ sides.length = 1 := by simpa using h1
    by_cases h2 : (ins.contains "MINUEND" && sides.contains "SUBTRAHEND") = true
    · rw [if_pos h2]
      rw [Bool.and_eq_true] at h2
      have hins : ins = ["MINUEND"] := eq_singleton_of_length_one_contains hlen.1 h2.1
      have hsides : sides = ["SUBTRAHEND"] := eq_singleton_of_length_one_contains hlen.2 h2.2
      refine ⟨⟨fun _ => Or.inl ⟨hins, hsides⟩, fun _ => ⟨_, rfl⟩⟩, fun e he => absurd he (by simp),
        fun st hst => ?_⟩
      obtain rfl : st = _ := by simpa [eq_comm] using hst
      simp [hins, hsides]
    · rw [if_neg h2]
      by_cases h3 : (ins.contains "SUBTRAHEND" && sides.contains "MINUEND") = true
      · rw [if_pos h3]
        rw [Bool.and_eq_true] at h3
        have hins : ins = ["SUBTRAHEND"] := eq_singleton_of_length_one_contains hlen.1 h3.1
        have hsides : sides = ["MINUEND"] := eq_singleton_of_length_one_contains hlen.2 h3.2
        refine ⟨⟨fun _ => Or.inr ⟨hins, hsides⟩, fun _ => ⟨_, rfl⟩⟩, fun e he => absurd he (by simp),
          fun st hst => ?_⟩
        obtain rfl : st = _ := by simpa [eq_comm] using hst
        simp [hins, hsides]
      · rw [if_neg h3]
        refine ⟨⟨fun ⟨st, hst⟩ => absurd hst (by simp), ?_⟩, fun e he => ?_,
          fun st hst => absurd hst (by simp)⟩
        · rintro (⟨rfl, rfl⟩ | ⟨rfl, rfl⟩)
          · exact absurd (by decide) h2
          · exact absurd (by decide) h3
        · obtain rfl : invalidArgumentError contractTagMsg = e := by simpa using he
          exact ⟨rfl, Or.inr rfl⟩

/-- Witness for C2: the configuration streamed=`MINUEND`, side=`SUBTRAHEND`
is accepted. -/
theorem GetContract_contract_validity_witness :
    ∃ st, GetContract ⟨["MINUEND"], ["SUBTRAHEND"]⟩ = .ok st :=
  (GetContract_contract_validity ⟨["MINUEND"], ["SUBTRAHEND"]⟩).1.mpr (Or.inl ⟨rfl, rfl⟩)

/-- C1: with the member state produced by `Open` from the configuration,
every successful `Process` call on a node whose streamed port is tagged
`MINUEND` appends `streamed − side` to the output port, and on a node whose
streamed port is tagged `SUBTRAHEND` appends `side − streamed`; `Process`
never changes the role fixed at `Open`. -/
theorem Process_role_fixation (cc : PortConfig) (st : CalculatorState)
    (inputM sideM : Matrix) (outs : List OutputPacket) (ts : Int)
    (hst : st = (Open cc initialState).state) :
    (Process st inputM sideM outs ts).state = st ∧
    (cc.inputTags = ["MINUEND"] →
      (Process st inputM sideM outs ts).status = okStatus →
      (Process st inputM sideM outs ts).outputs = outs ++ [⟨inputM.sub sideM, ts⟩]) ∧
    (cc.inputTags = ["SUBTRAHEND"] →
      (Process st inputM sideM outs ts).status = okStatus →
      (Process st inputM sideM outs ts).outputs = outs ++ [⟨sideM.sub inputM, ts⟩]) := by
  refine ⟨by rw [Process_eq]; split <;> rfl, ?_, ?_⟩
  · intro htag hok
    by_cases hs : (inputM.rows != sideM.rows || inputM.cols != sideM.cols) = true
    · rw [Process_eq, if_pos hs] at hok
      simp [invalidArgumentError, okStatus] at hok
    · have hcont : "MINUEND" ∈ cc.inputTags := by rw [htag]; simp
      have hb : st.subtract_from_input = true := by rw [hst]; simp [Open, hcont]
      rw [Process_eq, if_neg hs]
      simp [hb]
  · intro htag hok
    by_cases hs : (inputM.rows != sideM.rows || inputM.cols != sideM.cols) = true
    · rw [Process_eq, if_pos hs] at hok
      simp [invalidArgumentError, okStatus] at hok
    · have hcont : "MINUEND" ∉ cc.inputTags := by rw [htag]; simp
      have hb : st.subtract_from_input = false := by
        rw [hst]; simp [Open, hcont, initialState]
      rw [Process_eq, if_neg hs]
      simp [hb]

/-- Witness for C1: a `MINUEND`-tagged stream with 2×2 operands emits
`streamed − side`. -/
theorem Process_role_fixation_witness :
    (Process ⟨true⟩ m1 m2 [] 7).outputs = [] ++ [⟨m1.sub m2, 7⟩] :=
  (Process_role_fixation ⟨["MINUEND"], ["SUBTRAHEND"]⟩ ⟨true⟩ m1 m2 [] 7 rfl).2.1 rfl rfl

/-- C3: whenever the two operand matrices differ in row count or in column
count, `Process` returns the `DimensionMismatch` error and adds nothing to
the output port. -/
theorem Process_dimension_mismatch (st : CalculatorState) (inputM sideM : Matrix)
    (outs : List OutputPacket) (ts : Int)
    (h : inputM.rows ≠ sideM.rows ∨ inputM.cols ≠ sideM.cols) :
    (Process st inputM sideM outs ts).status = invalidArgumentError dimensionMsg ∧
    isDimensionMismatch (Process st inputM sideM outs ts).status ∧
    (Process st inputM sideM outs ts).outputs = outs := by
  rw [Process_eq, if_pos (shape_check_true h)]
  exact ⟨rfl, ⟨rfl, rfl⟩, rfl⟩

/-- Witness for C3: a 2×3 streamed matrix against a 3×2 side matrix fails
and emits nothing. -/
theorem Process_dimension_mismatch_witness :
    (Process ⟨true⟩ m3 m4 [] 0).outputs = [] :=
  (Process_dimension_mismatch ⟨true⟩ m3 m4 [] 0 (Or.inl (by decide))).2.2

/-- C4: on equal-shape operands `Process` succeeds and appends one output
matrix of the same shape whose entries are the element-wise difference
minuend − subtrahend, the minuend being chosen by the fixed role. -/
theorem Process_equal_shape (st : CalculatorState) (inputM sideM : Matrix)
    (outs : List OutputPacket) (ts : Int)
    (hr : inputM.rows = sideM.rows) (hc : inputM.cols = sideM.cols) :
    (Process st inputM sideM outs ts).status = okStatus ∧
    ∃ out : Matrix,
      (Process st inputM sideM outs ts).outputs = outs ++ [⟨out, ts⟩] ∧
      out.rows = inputM.rows ∧ out.cols = inputM.cols ∧
      ∀ i j, out.entry i j =
        if st.subtract_from_input then inputM.entry i j - sideM.entry i j
        else sideM.entry i j - inputM.entry i j := by
  rw [Process_eq, if_neg (by simp [shape_check_false hr hc])]
  refine ⟨rfl, if st.subtract_from_input then inputM.sub sideM else sideM.sub inputM,
    rfl, ?_, ?_, fun i j => ?_⟩ <;>
      by_cases hb : st.subtract_from_input <;> simp [hb, Matrix.sub, hr, hc]

/-- Witness for C4: two concrete 2×2 matrices subtract successfully. -/
theorem Process_equal_shape_witness :
    (Process ⟨false⟩ m1 m2 [] 3).status = okStatus :=
  (Process_equal_shape ⟨false⟩ m1 m2 [] 3 rfl rfl).1

/-- C5: `Open` registers a zero timestamp offset, and every successful
`Process` call emits its single output exactly at the input timestamp. -/
theorem Process_timestamp_propagation (cc : PortConfig) (st : CalculatorState)
    (inputM sideM : Matrix) (outs : List OutputPacket) (ts : Int)
    (hok : (Process st inputM sideM outs ts).status = okStatus) :
    (Open cc initialState).offset = 0 ∧
    ∃ out : Matrix, (Process st inputM sideM outs ts).outputs = outs ++ [⟨out, ts⟩] := by
  refine ⟨rfl, ?_⟩
  rw [Process_eq] at hok ⊢
  by_cases hs : (inputM.rows != sideM.rows || inputM.cols != sideM.cols) = true
  · rw [if_pos hs] at hok
    simp [invalidArgumentError, okStatus] at hok
  · rw [if_neg hs]
    exact ⟨_, rfl⟩

/-- Witness for C5: a successful call at timestamp 3 emits at timestamp 3. -/
theorem Process_timestamp_propagation_witness :
    (Open ⟨["MINUEND"], ["SUBTRAHEND"]⟩ initialState).offset = 0 ∧
    ∃ out : Matrix, (Process ⟨true⟩ m1 m2 [] 3).outputs = [] ++ [⟨out, 3⟩] :=
  Process_timestamp_propagation ⟨["MINUEND"], ["SUBTRAHEND"]⟩ ⟨true⟩ m1 m2 [] 3 rfl

/-- C6: for equal-shape A (streamed) and B (side), the `MINUEND` role
(`subtract_from_input_` true) emits A − B, the `SUBTRAHEND` role emits
B − A, and B − A is the element-wise negation of A − B. -/
theorem Process_anti_commutativity (A B : Matrix) (outs : List OutputPacket) (ts : Int)
    (hr : A.rows = B.rows) (hc : A.cols = B.cols) :
    (Process ⟨true⟩ A B outs ts).outputs = outs ++ [⟨A.sub B, ts⟩] ∧
    (Process ⟨false⟩ A B outs ts).outputs = outs ++ [⟨B.sub A, ts⟩] ∧
    B.sub A = (A.sub B).neg := by
  have hs : ¬(A.rows != B.rows || A.cols != B.cols) = true := by
    simp [shape_check_false hr hc]
  refine ⟨by rw [Process_eq, if_neg hs]; rfl, by rw [Process_eq, if_neg hs]; rfl, ?_⟩
  refine Matrix.ext hr.symm hc.symm ?_
  funext i j
  simp [Matrix.sub, Matrix.neg]

/-- Witness for C6: concrete 2×2 matrices satisfy the anti-commutativity
relation. -/
theorem Process_anti_commutativity_witness :
    m2.sub m1 = (m1.sub m2).neg :=
  (Process_anti_commutativity m1 m2 [] 0 rfl rfl).2.2

/-- C7: every error of `GetContract` belongs to the `InvalidConfiguration`
class and not to `DimensionMismatch`; every non-ok outcome of `Process`
belongs to `DimensionMismatch` and not to `InvalidConfiguration`; `Open`
produces no error at all. -/
theorem error_taxonomy :
    (∀ cc e, GetContract cc = .error e →
      isInvalidConfiguration e ∧ ¬ isDimensionMismatch e) ∧
    (∀ (st : CalculatorState) (inputM sideM : Matrix) (outs : List OutputPacket) (ts : Int),
      (Process st inputM sideM outs ts).status ≠ okStatus →
      isDimensionMismatch (Process st inputM sideM outs ts).status ∧
      ¬ isInvalidConfiguration (Process st inputM sideM outs ts).status) ∧
    (∀ cc st, (Open cc st).status = okStatus) := by
  refine ⟨fun cc e he => ?_, fun st inputM sideM outs ts hne => ?_, fun cc st => rfl⟩
  · unfold GetContract at he
    by_cases h1 : (cc.inputTags.length != 1 || cc.inputSidePacketTags.length != 1) = true
    · rw [if_pos h1] at he
      obtain rfl : invalidArgumentError contractCardinalityMsg = e := by simpa using he
      exact ⟨by decide, by decide⟩
    · rw [if_neg h1] at he
      by_cases h2 : (cc.inputTags.contains "MINUEND" &&
          cc.inputSidePacketTags.contains "SUBTRAHEND") = true
      · rw [if_pos h2] at he
        exact absurd he (by simp)
      · rw [if_neg h2] at he
        by_cases h3 : (cc.inputTags.contains "SUBTRAHEND" &&
            cc.inputSidePacketTags.contains "MINUEND") = true
        · rw [if_pos h3] at he
          exact absurd he (by simp)
        · rw [if_neg h3] at he
          obtain rfl : invalidArgumentError contractTagMsg = e := by simpa using he
          exact ⟨by decide, by decide⟩
  · by_cases hs : (inputM.rows != sideM.rows || inputM.cols != sideM.cols) = true
    · rw [Process_eq, if_pos hs]
      show isDimensionMismatch (invalidArgumentError dimensionMsg) ∧
        ¬ isInvalidConfiguration (invalidArgumentError dimensionMsg)
      exact ⟨by decide, by decide⟩
    · rw [Process_eq, if_neg hs] at hne
      exact absurd rfl hne

/-- Witness for C7 at a concrete empty configuration: `Open` reports ok. -/
theorem error_taxonomy_witness :
    (Open ⟨[], []⟩ initialState).status = okStatus :=
  error_taxonomy.2.2 ⟨[], []⟩ initialState

/-- C8: `Process` never modifies the streamed operand, the side operand or
the role state; on success its only effect is appending the one output
packet, and on failure it appends nothing. -/
theorem Process_frame_effect (st : CalculatorState) (inputM sideM : Matrix)
    (outs : List OutputPacket) (ts : Int) :
    (Process st inputM sideM outs ts).inputMatrix = inputM ∧
    (Process st inputM sideM outs ts).sideInputMatrix = sideM ∧
    (Process st inputM sideM outs ts).state = st ∧
    ((Process st inputM sideM outs ts).status = okStatus →
      ∃ out : Matrix, (Process st inputM sideM outs ts).outputs = outs ++ [⟨out, ts⟩]) ∧
    ((Process st inputM sideM outs ts).status ≠ okStatus →
      (Process st inputM sideM outs ts).outputs = outs) := by
  rw [Process_eq]
  by_cases hs : (inputM.rows != sideM.rows || inputM.cols != sideM.cols) = true
  · rw [if_pos hs]
    refine ⟨rfl, rfl, rfl, fun hok => ?_, fun _ => rfl⟩
    simp [invalidArgumentError, okStatus] at hok
  · rw [if_neg hs]
    exact ⟨rfl, rfl, rfl, fun _ => ⟨_, rfl⟩, fun hne => absurd rfl hne⟩

/-- Witness for C8: at concrete 2×2 operands the state and operands are
untouched. -/
theorem Process_frame_effect_witness :
    (Process ⟨true⟩ m1 m2 [] 4).state = ⟨true⟩ :=
  (Process_frame_effect ⟨true⟩ m1 m2 [] 4).2.2.1

/-- C9: `Process` is deterministic: two runs with the same role, streamed
matrix, side matrix and timestamp return the same status and append the
same packets, whatever was already on the output port. -/
theorem Process_deterministic (st : CalculatorState) (inputM sideM : Matrix)
    (outs1 outs2 : List OutputPacket) (ts : Int) :
    (Process st inputM sideM outs1 ts).status = (Process st inputM sideM outs2 ts).status ∧
    (Process st inputM sideM outs1 ts).outputs.drop outs1.length =
      (Process st inputM sideM outs2 ts).outputs.drop outs2.length := by
  rw [Process_eq, Process_eq]
  by_cases hs : (inputM.rows != sideM.rows || inputM.cols != sideM.cols) = true
  · rw [if_pos hs, if_pos hs]
    exact ⟨rfl, by simp [List.drop_length]⟩
  · rw [if_neg hs, if_neg hs]
    exact ⟨rfl, by simp [List.drop_left]⟩

/-- C10: `Open` returns ok on every configuration, and when the streamed
port carries no `MINUEND` tag the role stays at its default
`subtract_from_input_ = false`. -/
theorem Open_total (cc : PortConfig) :
    (Open cc initialState).status = okStatus ∧
    (cc.inputTags.contains "MINUEND" = false →
      (Open cc initialState).state.subtract_from_input = false) := by
  refine ⟨rfl, fun h => ?_⟩
  have hmem : "MINUEND" ∉ cc.inputTags := by simpa using h
  simp [Open, hmem, initialState]

/-- Witness for C10: the `SUBTRAHEND`-streamed configuration keeps the
default role. -/
theorem Open_total_witness :
    (Open ⟨["SUBTRAHEND"], ["MINUEND"]⟩ initialState).state.subtract_from_input = false :=
  (Open_total ⟨["SUBTRAHEND"], ["MINUEND"]⟩).2 (by decide)

end MediaPipe
